import Mathlib

/-!
# go-sqlite3-gcs-vfs: a shallow embedding of `gcsvfs.go`

The development embeds the path resolver (`parsePathInfo`, `lookupPathInfo`),
the filesystem-level adapter (`FullPathname`, `Open`, `Delete`) and the file
handle (`ReadAt`, `WriteAt`, `Sync`, `FileSize`, `Close`) of package `gcsvfs`.

Conventions of the embedding

* A Go `string` is a `List Char`.  The only separators and suffixes the code
  inspects (`/`, `-journal`, `-wal`) are ASCII, and UTF-8 is self-synchronising,
  so the byte-level `strings` functions agree with the character-level ones
  used here.
* A Go `map[string]*pathInfo` is `Option (Str → Option pathInfo)`: `none` is
  the nil map, a missing key reads as `none` (the nil pointer).
* The collaborators of the package (the object store behind
  `cloud.google.com/go/storage`, the local file system behind `os`) are an
  explicit `World`; the outcome of every fallible external call that the
  state does not determine is an explicit argument of the operation.
* A run-time panic (nil dereference) is the outer `Option` being `none`.
-/

namespace gcsvfs

/-- Go `string`. -/
abbrev Str := List Char

/-- Go `byte`. -/
abbrev Byte := Nat

/-- The Go `error` values the package can observe.  `ErrObjectNotExist` is the
sentinel `storage.ErrObjectNotExist`, `googleapi code` a `*googleapi.Error` with
HTTP status `code`, `parsePath` the `errors.New` value of `parsePathInfo`,
`ErrInvalid` is `os.ErrInvalid`, and `other` any further error. -/
inductive GoError where
  | ErrObjectNotExist
  | googleapi (code : Int)
  | parsePath
  | ErrInvalid
  | other (msg : String)
  deriving DecidableEq, Repr

/-- Status code `http.StatusRequestedRangeNotSatisfiable`. -/
def StatusRequestedRangeNotSatisfiable : Int := 416

/-! ## `strings` -/

/-- `strings.Split(s, sep)` for a one-byte separator: the substrings between
the occurrences of `sep`; a string without `sep` gives the one-element slice
`[s]`. -/
def Split : Str → Char → List Str
  | [], _ => [[]]
  | c :: cs, sep =>
    if c = sep then [] :: Split cs sep
    else
      match Split cs sep with
      | [] => [[c]]
      | seg :: rest => (c :: seg) :: rest

/-- `strings.Join(elems, sep)`. -/
def Join : List Str → Str → Str
  | [], _ => []
  | [a], _ => a
  | a :: b :: rest, sep => a ++ sep ++ Join (b :: rest) sep

/-- `strings.HasSuffix(s, suffix)`:
`len(s) >= len(suffix) && s[len(s)-len(suffix):] == suffix`. -/
def HasSuffix (s suffix : Str) : Bool :=
  decide (suffix.length ≤ s.length) && (s.drop (s.length - suffix.length) == suffix)

/-- `strings.TrimSuffix(s, suffix)`. -/
def TrimSuffix (s suffix : Str) : Str :=
  if HasSuffix s suffix then s.take (s.length - suffix.length) else s

/-! ## Path resolver -/

/-- `type pathInfo struct`. -/
structure pathInfo where
  bucket : Str
  path : Str
  deriving DecidableEq, Repr

/-- `func parsePathInfo(path string) (info *pathInfo, err error)`. -/
def parsePathInfo (path : Str) : Except GoError pathInfo :=
  let part := Split path '/'
  if part.length < 2 then
    .error .parsePath
  else
    .ok { bucket := part.getD 0 [], path := Join (part.drop 1) ['/'] }

/-! ## Shared state: the Path Table and the adapter -/

/-- Go `map[string]*pathInfo`; `none` is the nil map. -/
abbrev PathTable := Option (Str → Option pathInfo)

/-- Map read `m[key]`: a nil map and a missing key both read as the nil pointer. -/
def PathTable.get (m : PathTable) (key : Str) : Option pathInfo :=
  match m with
  | none => none
  | some f => f key

/-- Map write `m[key] = info` on a non-nil map. -/
def mapSet (f : Str → Option pathInfo) (key : Str) (info : pathInfo) :
    Str → Option pathInfo :=
  fun k => if k = key then some info else f k

/-- Builtin `delete(m, key)`; a no-op on the nil map. -/
def PathTable.delete (m : PathTable) (key : Str) : PathTable :=
  match m with
  | none => none
  | some f => some (fun k => if k = key then none else f k)

/-- `type GCSVFS struct`: `client` records whether the `*storage.Client` is
non-nil; the `ctx` field carries no data of its own. -/
structure GCSVFS where
  client : Bool
  pathInfos : PathTable

/-- What `FullPathname` reads from outside the package: the value of
`os.TempDir()` and the function `filepath.Join` (on two elements). -/
structure Env where
  TempDir : Str
  filepathJoin : Str → Str → Str

/-- `func (vfs *GCSVFS) FullPathname(path string) (fullpath string, err error)`:
the result pair and the adapter afterwards. -/
def GCSVFS.FullPathname (vfs : GCSVFS) (env : Env) (path : Str) :
    (Str × Option GoError) × GCSVFS :=
  match parsePathInfo path with
  | .error err => (([], some err), vfs)
  | .ok info =>
    let fullpath := env.filepathJoin env.TempDir info.path
    let m : Str → Option pathInfo :=
      match vfs.pathInfos with
      | none => fun _ => none
      | some f => f
    ((fullpath, none), { vfs with pathInfos := some (mapSet m fullpath info) })

/-- `func (vfs *GCSVFS) lookupPathInfo(path string) *pathInfo`; `none` is the
panic of dereferencing the nil `info` of an unregistered key. -/
def GCSVFS.lookupPathInfo (vfs : GCSVFS) (path : Str) : Option pathInfo :=
  let infoKey := path
  let suffix : Str := []
  let (infoKey, suffix) :=
    if HasSuffix infoKey "-journal".toList then
      (TrimSuffix infoKey "-journal".toList, "-journal".toList)
    else (infoKey, suffix)
  let (infoKey, suffix) :=
    if HasSuffix infoKey "-wal".toList then
      (TrimSuffix infoKey "-wal".toList, "-wal".toList)
    else (infoKey, suffix)
  match vfs.pathInfos.get infoKey with
  | none => none
  | some info => some { bucket := info.bucket, path := info.path ++ suffix }

/-! ## The collaborators: object store and local file system -/

/-- The state outside the package: `objects bucket key` is the content of the
remote object (`none`: it does not exist), `files path` the content of the
local file at `path` (`none`: no such file). -/
structure World where
  objects : Str → Str → Option (List Byte)
  files : Str → Option (List Byte)

/-- A `*storage.ObjectHandle`, bound to one bucket and one object key. -/
structure ObjectHandle where
  bucket : Str
  object : Str
  deriving DecidableEq, Repr

/-- The store with the object of `o` replaced by `data`. -/
def World.putObject (w : World) (o : ObjectHandle) (data : Option (List Byte)) : World :=
  { w with objects := fun b k => if b = o.bucket ∧ k = o.object then data else w.objects b k }

/-- The local file system with `path` bound to `data` (`none` unlinks it). -/
def World.putFile (w : World) (path : Str) (data : Option (List Byte)) : World :=
  { w with files := fun k => if k = path then data else w.files k }

/-- `(*storage.ObjectHandle).Delete`: a transport or service failure `fault`
is returned as it is; otherwise a missing object is reported with
`storage.ErrObjectNotExist` and an existing one is removed. -/
def ObjectHandle.Delete (o : ObjectHandle) (w : World) (fault : Option GoError) :
    Option GoError × World :=
  match fault with
  | some e => (some e, w)
  | none =>
    match w.objects o.bucket o.object with
    | none => (some .ErrObjectNotExist, w)
    | some _ => (none, w.putObject o none)

/-- `(*storage.ObjectHandle).Attrs`, reduced to the `Size` attribute. -/
def ObjectHandle.Attrs (o : ObjectHandle) (w : World) (fault : Option GoError) :
    Except GoError Nat :=
  match fault with
  | some e => .error e
  | none =>
    match w.objects o.bucket o.object with
    | none => .error .ErrObjectNotExist
    | some data => .ok data.length

/-- `(*storage.ObjectHandle).NewRangeReader(ctx, off, length)` with
`length >= 0`: a failure `fault` is returned as it is; a missing object is
`storage.ErrObjectNotExist`; an offset at or past the end of the object is the
`*googleapi.Error` of status 416; otherwise the reader holds the bytes of the
range that the object has. -/
def ObjectHandle.NewRangeReader (o : ObjectHandle) (w : World) (off length : Nat)
    (fault : Option GoError) : Except GoError (List Byte) :=
  match fault with
  | some e => .error e
  | none =>
    match w.objects o.bucket o.object with
    | none => .error .ErrObjectNotExist
    | some data =>
      if data.length ≤ off then .error (.googleapi StatusRequestedRangeNotSatisfiable)
      else .ok ((data.drop off).take length)

/-- `(*os.File).WriteAt(b, off)` on a file of content `data`, `off >= 0`: an
empty `b` writes nothing; otherwise the file is zero-filled up to `off` and
`b` overwrites the bytes from `off` on. -/
def osWriteAt (data b : List Byte) (off : Nat) : List Byte :=
  if b = [] then data
  else data.take off ++ List.replicate (off - data.length) 0 ++ b ++ data.drop (off + b.length)

/-- `func (vfs *GCSVFS) Delete(path string, dirSync int) error`; `fault` is
the failure, if any, of the remote delete call.  `none` is a panic: the path is
not registered, or the client is nil. -/
def GCSVFS.Delete (vfs : GCSVFS) (w : World) (path : Str) (dirSync : Int)
    (fault : Option GoError) : Option (Option GoError × World) :=
  let _ := dirSync
  match vfs.lookupPathInfo path with
  | none => none
  | some info =>
    if vfs.client then
      some (ObjectHandle.Delete ⟨info.bucket, info.path⟩ w fault)
    else none

/-! ## File handle -/

/-- `type GCSFile struct`: the dirty flag, the staging file (identified by the
name it was opened under; `none` is the nil `*os.File`) and the object handle.
The back pointer `vfs` is the `GCSVFS` passed to `Close`; `bucket` and `rc` are
never assigned or read; `mu` only serialises `Sync`. -/
structure GCSFile where
  pendingWrite : Bool
  tempFile : Option Str
  obj : ObjectHandle
  deriving DecidableEq, Repr

/-- `func (vfs *GCSVFS) Open(name string, flags int) (file interface{}, err error)`.
`clientErr` is the failure of `storage.NewClient` (consulted only when the
client is still nil) and `openErr` that of `os.OpenFile`.  `none` is the panic
of `lookupPathInfo` on an unregistered name. -/
def GCSVFS.Open (vfs : GCSVFS) (w : World) (name : Str) (flags : Int)
    (clientErr openErr : Option GoError) :
    Option (Except GoError GCSFile × GCSVFS × World) :=
  let _ := flags
  match vfs.client, clientErr with
  | false, some e => some (.error e, vfs, w)
  | _, _ =>
    let vfs1 : GCSVFS := { vfs with client := true }
    match vfs1.lookupPathInfo name with
    | none => none
    | some info =>
      match openErr with
      | some e => some (.error e, vfs1, w)
      | none =>
        let w1 := match w.files name with
          | none => w.putFile name (some [])
          | some _ => w
        some (.ok { pendingWrite := false, tempFile := some name,
                    obj := ⟨info.bucket, info.path⟩ }, vfs1, w1)

/-- `func (f *GCSFile) Close() (err error)`: the error, the adapter and the
world afterwards.  The results of `tempFile.Close()` and `os.Remove` are
dropped by the code; the unlink of the staging file is taken to go through. -/
def GCSFile.Close (f : GCSFile) (vfs : GCSVFS) (w : World) :
    Option GoError × GCSVFS × World :=
  match f.tempFile with
  | some name =>
    (none, { vfs with pathInfos := vfs.pathInfos.delete name }, w.putFile name none)
  | none => (none, vfs, w)

/-- `func (f *GCSFile) FileSize() (size int64, err error)`. -/
def GCSFile.FileSize (f : GCSFile) (w : World) (fault : Option GoError) :
    Nat × Option GoError :=
  match f.obj.Attrs w fault with
  | .error e => if e = .ErrObjectNotExist then (0, none) else (0, some e)
  | .ok size => (size, none)

/-- `func (f *GCSFile) WriteAt(b []byte, off int64) (n int, err error)` for
`off >= 0`: the flag is set first, then the staging file is written.  `ioErr`
is the failure, if any, of the local write. -/
def GCSFile.WriteAt (f : GCSFile) (w : World) (b : List Byte) (off : Nat)
    (ioErr : Option GoError) : (Nat × Option GoError) × GCSFile × World :=
  let f1 : GCSFile := { f with pendingWrite := true }
  match f.tempFile with
  | none => ((0, some .ErrInvalid), f1, w)
  | some name =>
    match w.files name with
    | none => ((0, some .ErrInvalid), f1, w)
    | some data =>
      match ioErr with
      | some e => ((0, some e), f1, w)
      | none => ((b.length, none), f1, w.putFile name (some (osWriteAt data b off)))

/-- What the two fallible steps of an upload did: `copyErr` is the error of
`io.Copy(w, f.tempFile)`, `copied` the number of bytes that had reached the
writer when a failing copy stopped, `closeErr` the error of the deferred
`w.Close()`, the call that commits the object. -/
structure Upload where
  copyErr : Option GoError
  copied : Nat
  closeErr : Option GoError

/-- The content of the staging file of a handle, read from its start. -/
def GCSFile.staged (f : GCSFile) (w : World) : Option (List Byte) :=
  match f.tempFile with
  | none => none
  | some name => w.files name

/-- `func (f *GCSFile) Sync(flags int) (err error)`.  The writer replaces the
object with the bytes it received when, and only when, its `Close` succeeds;
the result of the deferred `Close` is dropped. -/
def GCSFile.Sync (f : GCSFile) (w : World) (flags : Int) (up : Upload) :
    Option GoError × GCSFile × World :=
  let _ := flags
  if f.pendingWrite then
    let commit (sent : List Byte) : World :=
      match up.closeErr with
      | none => w.putObject f.obj (some sent)
      | some _ => w
    match f.staged w, up.copyErr with
    | none, _ => (some .ErrInvalid, f, commit [])
    | some data, some e => (some e, f, commit (data.take up.copied))
    | some data, none => (none, { f with pendingWrite := false }, commit data)
  else (none, f, w)

/-- What the one call `r.Read(b)` of `ReadAt` did: it delivered the first `n`
bytes of the opened range (fewer when the range is shorter) and returned
`err`.  A single `Read` may be short, and may return bytes together with
`io.EOF` or another error. -/
structure ReadResult where
  n : Nat
  err : Option GoError

/-- `func (f *GCSFile) ReadAt(b []byte, off int64) (n int, err error)` for a
buffer of `len` bytes and `off >= 0`: the bytes placed in `b[:n]` and the
error.  `fault` is the failure, if any, of opening the range reader; `rd` is
what the single `r.Read(b)` did, whose `(n, err)` is returned as it is. -/
def GCSFile.ReadAt (f : GCSFile) (w : World) (len off : Nat) (fault : Option GoError)
    (rd : ReadResult) : List Byte × Option GoError :=
  match f.obj.NewRangeReader w off len fault with
  | .error err =>
    if err = .ErrObjectNotExist then ([], none)
    else
      match err with
      | .googleapi code =>
        if code = StatusRequestedRangeNotSatisfiable then ([], none) else ([], some err)
      | _ => ([], some err)
  | .ok r => (r.take rd.n, rd.err)

/-! ## A concrete scenario: database `mydb/app.db` -/

/-- The environment of the scenario: `os.TempDir()` is `/tmp` and
`filepath.Join` puts one separator between two clean elements. -/
def appEnv : Env := ⟨"/tmp".toList, fun a b => a ++ '/' :: b⟩

/-- The adapter after `FullPathname "mydb/app.db"` and a first `Open`. -/
def appVFS : GCSVFS :=
  { ((GCSVFS.mk false none).FullPathname appEnv "mydb/app.db".toList).2 with client := true }

/-- The handle that `Open "/tmp/app.db"` returns. -/
def appFile : GCSFile :=
  ⟨false, some "/tmp/app.db".toList, ⟨"mydb".toList, "app.db".toList⟩⟩

/-- A world with no remote object and an empty staging file `/tmp/app.db`. -/
def appWorld : World :=
  ⟨fun _ _ => none, fun k => if k = "/tmp/app.db".toList then some [] else none⟩

/-- The scenario after a successful `WriteAt([1 2 3], 0)`. -/
def appWritten : (Nat × Option GoError) × GCSFile × World :=
  appFile.WriteAt appWorld [1, 2, 3] 0 none

/-- The scenario after the following `Sync`, in a run where `io.Copy` succeeds
and the deferred `w.Close()` fails to commit the object. -/
def appSynced : Option GoError × GCSFile × World :=
  appWritten.2.1.Sync appWritten.2.2 0 ⟨none, 3, some (.other "commit failed")⟩

/-! ## Lemmas on `strings` -/

theorem Split_ne_nil (s : Str) (sep : Char) : Split s sep ≠ [] := by
  induction s with
  | nil => simp [Split]
  | cons c cs ih =>
    unfold Split
    split
    · simp
    · split <;> simp

theorem Split_of_not_mem (s : Str) (sep : Char) (h : sep ∉ s) : Split s sep = [s] := by
  induction s with
  | nil => simp [Split]
  | cons c cs ih =>
    have hc : c ≠ sep := fun e => h (by simp [e])
    have hcs : sep ∉ cs := fun e => h (by simp [e])
    simp [Split, hc, ih hcs]

/-- The shape of `Split` on a string holding the separator: the text before the
first separator, then the split of the text after it. -/
theorem Split_of_mem (s : Str) (sep : Char) (h : sep ∈ s) :
    Split s sep =
      s.takeWhile (fun c => c != sep) ::
        Split ((s.dropWhile (fun c => c != sep)).drop 1) sep := by
  induction s with
  | nil => simp at h
  | cons c cs ih =>
    by_cases hc : c = sep
    · subst hc
      simp [Split, List.takeWhile, List.dropWhile]
    · have hcs : sep ∈ cs := by
        rcases List.mem_cons.1 h with e | e
        · exact absurd e.symm hc
        · exact e
      have hne : (c != sep) = true := by simp [hc]
      simp only [Split, hc, if_false, ih hcs, List.takeWhile, List.dropWhile, hne]

theorem Join_Split (s : Str) (sep : Char) : Join (Split s sep) [sep] = s := by
  induction s with
  | nil => simp [Split, Join]
  | cons c cs ih =>
    unfold Split
    by_cases hc : c = sep
    · subst hc
      simp only [if_true]
      cases hsp : Split cs c with
      | nil => exact absurd hsp (Split_ne_nil cs c)
      | cons seg rest =>
        rw [hsp] at ih
        simp [Join, ih]
    · simp only [hc, if_false]
      cases hsp : Split cs sep with
      | nil => exact absurd hsp (Split_ne_nil cs sep)
      | cons seg rest =>
        rw [hsp] at ih
        cases rest with
        | nil => simpa [Join] using ih
        | cons r rs =>
          simp only [Join] at ih ⊢
          simp [← ih]

theorem takeWhile_append_sep_dropWhile (s : Str) (sep : Char) (h : sep ∈ s) :
    s.takeWhile (fun c => c != sep) ++ [sep] ++
      (s.dropWhile (fun c => c != sep)).drop 1 = s := by
  induction s with
  | nil => simp at h
  | cons c cs ih =>
    by_cases hc : c = sep
    · subst hc
      simp [List.takeWhile, List.dropWhile]
    · have hcs : sep ∈ cs := by
        rcases List.mem_cons.1 h with e | e
        · exact absurd e.symm hc
        · exact e
      have hne : (c != sep) = true := by simp [hc]
      simpa [List.takeWhile, List.dropWhile, hne] using ih hcs

theorem Split_length_lt_two_iff (s : Str) (sep : Char) :
    (Split s sep).length < 2 ↔ sep ∉ s := by
  constructor
  · intro h hm
    rw [Split_of_mem s sep hm] at h
    have := List.length_pos.2 (Split_ne_nil ((s.dropWhile (fun c => c != sep)).drop 1) sep)
    simp only [List.length_cons] at h
    omega
  · intro h
    simp [Split_of_not_mem s sep h]

/-! ## Path resolver: parsing -/

theorem parsePathInfo_of_not_mem (p : Str) (h : '/' ∉ p) :
    parsePathInfo p = .error .parsePath := by
  simp [parsePathInfo, (Split_length_lt_two_iff p '/').2 h]

/-- On a path holding a `/`, `parsePathInfo` succeeds, with the text before the
first `/` as bucket and the text after it as key. -/
theorem parsePathInfo_of_mem (p : Str) (hm : '/' ∈ p) :
    parsePathInfo p
      = .ok ⟨p.takeWhile (fun c => c != '/'), (p.dropWhile (fun c => c != '/')).drop 1⟩ := by
  have hlen : ¬ (Split p '/').length < 2 :=
    fun h => (Split_length_lt_two_iff p '/').1 h hm
  simp only [parsePathInfo, hlen, if_false]
  simp only [Split_of_mem p '/' hm, List.drop_succ_cons, List.drop_zero, List.getD_cons_zero,
    Join_Split]

/-- C1: `parsePathInfo p` fails exactly when `p` holds no `/` (its split has
fewer than two segments); otherwise it succeeds, the bucket is the text before
the first `/`, the key is all the text after the first `/` (the remaining
segments rejoined with `/`), and `bucket ++ "/" ++ key = p`. -/
theorem parsePathInfo_spec (p : Str) :
    ((∃ e, parsePathInfo p = .error e) ↔ '/' ∉ p) ∧
    ((Split p '/').length < 2 ↔ '/' ∉ p) ∧
    ('/' ∈ p →
      ∃ info, parsePathInfo p = .ok info ∧
        info.bucket = p.takeWhile (fun c => c != '/') ∧
        info.path = (p.dropWhile (fun c => c != '/')).drop 1 ∧
        info.path = Join ((Split p '/').drop 1) ['/'] ∧
        info.bucket ++ ['/'] ++ info.path = p) := by
  refine ⟨?_, Split_length_lt_two_iff p '/', ?_⟩
  · constructor
    · rintro ⟨e, he⟩ hm
      rw [parsePathInfo_of_mem p hm] at he
      cases he
    · intro h
      exact ⟨.parsePath, parsePathInfo_of_not_mem p h⟩
  · intro hm
    refine ⟨_, parsePathInfo_of_mem p hm, rfl, rfl, ?_, ?_⟩
    · simp only [Split_of_mem p '/' hm, List.drop_succ_cons, List.drop_zero, Join_Split]
    · exact takeWhile_append_sep_dropWhile p '/' hm

/-- The two concrete paths of C1: `"b/k1/k2"` parses to bucket `"b"` and key
`"k1/k2"`, and `"nobucket"` is rejected. -/
theorem parsePathInfo_spec_witness :
    parsePathInfo "b/k1/k2".toList = .ok ⟨"b".toList, "k1/k2".toList⟩ ∧
    parsePathInfo "nobucket".toList = .error .parsePath ∧
    ((∃ e, parsePathInfo "nobucket".toList = .error e) ↔ '/' ∉ "nobucket".toList) :=
  ⟨rfl, rfl, (parsePathInfo_spec "nobucket".toList).1⟩

/-- C10 fails as stated: `"/app.db"` is accepted, with the empty bucket. -/
theorem parsePathInfo_empty_bucket_counterexample :
    parsePathInfo "/app.db".toList = .ok ⟨[], "app.db".toList⟩ ∧
    ¬ (∀ p info, parsePathInfo p = .ok info → info.bucket ≠ []) := by
  refine ⟨rfl, fun h => ?_⟩
  exact h "/app.db".toList ⟨[], "app.db".toList⟩ rfl rfl

/-- C10 (amended): every successful `parsePathInfo p` returns as bucket the
first path segment of `p`, the text before the first `/`, verbatim; that bucket
is empty exactly when `p` starts with `/`. -/
theorem parsePathInfo_bucket (p : Str) (info : pathInfo)
    (h : parsePathInfo p = .ok info) :
    info.bucket = (Split p '/').getD 0 [] ∧
    info.bucket = p.takeWhile (fun c => c != '/') ∧
    (info.bucket = [] ↔ p.head? = some '/') := by
  have hm : '/' ∈ p := by
    by_contra hn
    rw [parsePathInfo_of_not_mem p hn] at h
    cases h
  have hb : info.bucket = p.takeWhile (fun c => c != '/') := by
    rw [parsePathInfo_of_mem p hm] at h
    cases h
    rfl
  refine ⟨?_, hb, ?_⟩
  · rw [hb, Split_of_mem p '/' hm]; rfl
  · rw [hb]
    cases p with
    | nil => simp at hm
    | cons c cs =>
      by_cases hc : c = '/'
      · simp [List.takeWhile, hc]
      · have hne : (c != '/') = true := by simp [hc]
        simp [List.takeWhile, hc, hne]

theorem parsePathInfo_bucket_witness :
    parsePathInfo "mydb/app.db".toList = .ok ⟨"mydb".toList, "app.db".toList⟩ ∧
    (("mydb".toList = []) ↔ "mydb/app.db".toList.head? = some '/') :=
  ⟨rfl,
   (parsePathInfo_bucket "mydb/app.db".toList ⟨"mydb".toList, "app.db".toList⟩ rfl).2.2⟩

/-! ## Path resolver: suffix-aware lookup -/

theorem HasSuffix_iff (s t : Str) : HasSuffix s t = true ↔ ∃ x, s = x ++ t := by
  unfold HasSuffix
  constructor
  · intro h
    simp only [Bool.and_eq_true, decide_eq_true_eq, beq_iff_eq] at h
    refine ⟨s.take (s.length - t.length), ?_⟩
    conv_lhs => rw [← List.take_append_drop (s.length - t.length) s]
    rw [h.2]
  · rintro ⟨x, rfl⟩
    simp

theorem HasSuffix_append (p t : Str) : HasSuffix (p ++ t) t = true :=
  (HasSuffix_iff _ _).2 ⟨p, rfl⟩

theorem TrimSuffix_append (p t : Str) : TrimSuffix (p ++ t) t = p := by
  simp [TrimSuffix, HasSuffix_append]

theorem HasSuffix_wal_journal (p : Str) :
    HasSuffix (p ++ "-wal".toList) "-journal".toList = false := by
  cases h : HasSuffix (p ++ "-wal".toList) "-journal".toList with
  | false => rfl
  | true =>
    obtain ⟨x, hx⟩ := (HasSuffix_iff _ _).1 h
    have hr := congrArg List.reverse hx
    simp at hr

/-- C2 fails as stated: with only `/tmp/x-wal` registered, as
`FullPathname "mydb/x-wal"` leaves the table, neither `/tmp/x-wal` itself nor
`/tmp/x-wal-journal` resolves to the registered entry; both strip `-wal` and
look up the unregistered `/tmp/x`. -/
theorem lookupPathInfo_suffix_counterexample :
    (GCSVFS.mk true (some (mapSet (fun _ => none) "/tmp/x-wal".toList
        ⟨"mydb".toList, "x-wal".toList⟩))).pathInfos.get "/tmp/x-wal".toList
      = some ⟨"mydb".toList, "x-wal".toList⟩ ∧
    (GCSVFS.mk true (some (mapSet (fun _ => none) "/tmp/x-wal".toList
        ⟨"mydb".toList, "x-wal".toList⟩))).lookupPathInfo "/tmp/x-wal".toList
      ≠ some ⟨"mydb".toList, "x-wal".toList⟩ ∧
    (GCSVFS.mk true (some (mapSet (fun _ => none) "/tmp/x-wal".toList
        ⟨"mydb".toList, "x-wal".toList⟩))).lookupPathInfo
        ("/tmp/x-wal".toList ++ "-journal".toList)
      ≠ some ⟨"mydb".toList, "x-wal".toList ++ "-journal".toList⟩ := by
  refine ⟨rfl, ?_, ?_⟩ <;> decide

/-- C2 (amended): for a staging path `p` registered with `(b, k)`:
`lookupPathInfo (p ++ "-wal")` is `(b, k ++ "-wal")`; when `p` does not end in
`-wal`, `lookupPathInfo (p ++ "-journal")` is `(b, k ++ "-journal")`; and when
`p` ends in neither suffix, `lookupPathInfo p` is `(b, k)`. -/
theorem lookupPathInfo_suffix (vfs : GCSVFS) (p b k : Str)
    (h : vfs.pathInfos.get p = some ⟨b, k⟩) :
    vfs.lookupPathInfo (p ++ "-wal".toList) = some ⟨b, k ++ "-wal".toList⟩ ∧
    (HasSuffix p "-wal".toList = false →
      vfs.lookupPathInfo (p ++ "-journal".toList) = some ⟨b, k ++ "-journal".toList⟩) ∧
    (HasSuffix p "-wal".toList = false → HasSuffix p "-journal".toList = false →
      vfs.lookupPathInfo p = some ⟨b, k⟩) := by
  have a1 : HasSuffix (p ++ ['-', 'w', 'a', 'l']) ['-', 'j', 'o', 'u', 'r', 'n', 'a', 'l'] = false :=
    HasSuffix_wal_journal p
  have a2 : HasSuffix (p ++ ['-', 'w', 'a', 'l']) ['-', 'w', 'a', 'l'] = true :=
    HasSuffix_append p _
  have a3 : TrimSuffix (p ++ ['-', 'w', 'a', 'l']) ['-', 'w', 'a', 'l'] = p :=
    TrimSuffix_append p _
  have a4 : HasSuffix (p ++ ['-', 'j', 'o', 'u', 'r', 'n', 'a', 'l'])
      ['-', 'j', 'o', 'u', 'r', 'n', 'a', 'l'] = true := HasSuffix_append p _
  have a5 : TrimSuffix (p ++ ['-', 'j', 'o', 'u', 'r', 'n', 'a', 'l'])
      ['-', 'j', 'o', 'u', 'r', 'n', 'a', 'l'] = p := TrimSuffix_append p _
  refine ⟨?_, ?_, ?_⟩
  · simp [GCSVFS.lookupPathInfo, a1, a2, a3, h]
  · intro hw
    have hw1 : HasSuffix p ['-', 'w', 'a', 'l'] = false := hw
    simp [GCSVFS.lookupPathInfo, a4, a5, hw1, h]
  · intro hw hj
    have hw1 : HasSuffix p ['-', 'w', 'a', 'l'] = false := hw
    have hj1 : HasSuffix p ['-', 'j', 'o', 'u', 'r', 'n', 'a', 'l'] = false := hj
    simp [GCSVFS.lookupPathInfo, hw1, hj1, h]

theorem lookupPathInfo_suffix_witness :
    appVFS.pathInfos.get "/tmp/app.db".toList = some ⟨"mydb".toList, "app.db".toList⟩ ∧
    appVFS.lookupPathInfo ("/tmp/app.db".toList ++ "-wal".toList)
      = some ⟨"mydb".toList, "app.db".toList ++ "-wal".toList⟩ ∧
    appVFS.lookupPathInfo ("/tmp/app.db".toList ++ "-journal".toList)
      = some ⟨"mydb".toList, "app.db".toList ++ "-journal".toList⟩ ∧
    appVFS.lookupPathInfo "/tmp/app.db".toList = some ⟨"mydb".toList, "app.db".toList⟩ :=
  ⟨rfl,
   (lookupPathInfo_suffix appVFS "/tmp/app.db".toList "mydb".toList "app.db".toList rfl).1,
   (lookupPathInfo_suffix appVFS "/tmp/app.db".toList "mydb".toList "app.db".toList rfl).2.1 rfl,
   (lookupPathInfo_suffix appVFS "/tmp/app.db".toList "mydb".toList "app.db".toList rfl).2.2
     rfl rfl⟩

/-! ## Adapter: `FullPathname` -/

theorem mapSet_idem (m : Str → Option pathInfo) (key : Str) (info : pathInfo) :
    mapSet (mapSet m key info) key info = mapSet m key info := by
  funext k
  simp only [mapSet]
  split <;> rfl

/-- C8: when `p` parses to `info`, `FullPathname p` returns the staging path
`filepath.Join(os.TempDir(), info.path)` without error, a second call returns
the same result and leaves the adapter (the Path Table included) as the first
call left it, and that table maps the staging path to `info`; when `p` does
not parse, `FullPathname` returns the parse error and the adapter is unchanged. -/
theorem FullPathname_idempotent (vfs : GCSVFS) (env : Env) (p : Str) :
    (∀ info, parsePathInfo p = .ok info →
      (vfs.FullPathname env p).1 = (env.filepathJoin env.TempDir info.path, none) ∧
      ((vfs.FullPathname env p).2.FullPathname env p).1 = (vfs.FullPathname env p).1 ∧
      ((vfs.FullPathname env p).2.FullPathname env p).2 = (vfs.FullPathname env p).2 ∧
      (vfs.FullPathname env p).2.pathInfos.get (vfs.FullPathname env p).1.1 = some info) ∧
    (∀ e, parsePathInfo p = .error e →
      (vfs.FullPathname env p).1 = ([], some e) ∧ (vfs.FullPathname env p).2 = vfs) := by
  constructor
  · intro info h
    simp only [GCSVFS.FullPathname, h, mapSet_idem, PathTable.get, mapSet, if_true, and_self]
  · intro e h
    simp only [GCSVFS.FullPathname, h, and_self]

theorem FullPathname_idempotent_witness :
    ((GCSVFS.mk false none).FullPathname
        ⟨"/tmp".toList, fun a b => a ++ '/' :: b⟩ "mydb/app.db".toList).1
      = ("/tmp/app.db".toList, none) ∧
    ((GCSVFS.mk false none).FullPathname
        ⟨"/tmp".toList, fun a b => a ++ '/' :: b⟩ "nobucket".toList).1
      = ([], some .parsePath) :=
  ⟨((FullPathname_idempotent (GCSVFS.mk false none)
      ⟨"/tmp".toList, fun a b => a ++ '/' :: b⟩ "mydb/app.db".toList).1
      ⟨"mydb".toList, "app.db".toList⟩ rfl).1,
   ((FullPathname_idempotent (GCSVFS.mk false none)
      ⟨"/tmp".toList, fun a b => a ++ '/' :: b⟩ "nobucket".toList).2 .parsePath rfl).1⟩

/-! ## File handle: `ReadAt` -/

/-- C7: whenever opening the range reader fails with `e`, `ReadAt` returns no
bytes; the error is dropped when `e` is `storage.ErrObjectNotExist` or a
`*googleapi.Error` of status 416, and for every other `e` the error returned is
`e` itself. -/
theorem ReadAt_open_error (f : GCSFile) (w : World) (len off : Nat)
    (fault : Option GoError) (rd : ReadResult) :
    ∀ e, f.obj.NewRangeReader w off len fault = .error e →
      ((e = .ErrObjectNotExist ∨ e = .googleapi 416) →
        f.ReadAt w len off fault rd = ([], none)) ∧
      (¬ (e = .ErrObjectNotExist ∨ e = .googleapi 416) →
        f.ReadAt w len off fault rd = ([], some e)) := by
  intro e he
  simp only [GCSFile.ReadAt, he]
  constructor
  · rintro (rfl | rfl)
    · simp
    · simp [StatusRequestedRangeNotSatisfiable]
  · intro hne
    have h1 : e ≠ .ErrObjectNotExist := fun h => hne (Or.inl h)
    cases e with
    | googleapi code =>
      have hc : code ≠ 416 := fun h => hne (Or.inr (by rw [h]))
      simp [StatusRequestedRangeNotSatisfiable, hc]
    | ErrObjectNotExist => exact absurd rfl h1
    | parsePath => simp
    | ErrInvalid => simp
    | other msg => simp

theorem ReadAt_open_error_witness :
    (GCSFile.mk false (some "/tmp/app.db".toList) ⟨"mydb".toList, "app.db".toList⟩).ReadAt
        ⟨fun _ _ => none, fun _ => none⟩ 4096 0 none ⟨4096, none⟩ = ([], none) ∧
    (GCSFile.mk false (some "/tmp/app.db".toList) ⟨"mydb".toList, "app.db".toList⟩).ReadAt
        ⟨fun _ _ => some [1, 2], fun _ => none⟩ 4096 2 none ⟨4096, none⟩ = ([], none) ∧
    (GCSFile.mk false (some "/tmp/app.db".toList) ⟨"mydb".toList, "app.db".toList⟩).ReadAt
        ⟨fun _ _ => none, fun _ => none⟩ 4096 0 (some (.googleapi 503)) ⟨4096, none⟩
      = ([], some (.googleapi 503)) :=
  ⟨((ReadAt_open_error _ ⟨fun _ _ => none, fun _ => none⟩ 4096 0 none ⟨4096, none⟩
      .ErrObjectNotExist rfl).1 (Or.inl rfl)),
   ((ReadAt_open_error _ ⟨fun _ _ => some [1, 2], fun _ => none⟩ 4096 2 none ⟨4096, none⟩
      (.googleapi 416) rfl).1 (Or.inr rfl)),
   ((ReadAt_open_error _ ⟨fun _ _ => none, fun _ => none⟩ 4096 0 (some (.googleapi 503))
      ⟨4096, none⟩ (.googleapi 503) rfl).2 (by decide))⟩

/-! ## File handle: `Close` -/

/-- What `Open` hands out: a clean handle whose staging file is the file named
`name`, which exists afterwards. -/
theorem Open_handle (vfs vfs1 : GCSVFS) (w w1 : World) (name : Str) (flags : Int)
    (clientErr openErr : Option GoError) (f : GCSFile)
    (h : vfs.Open w name flags clientErr openErr = some (.ok f, vfs1, w1)) :
    f.tempFile = some name ∧ f.pendingWrite = false ∧
      vfs1.lookupPathInfo name = some ⟨f.obj.bucket, f.obj.object⟩ ∧
      (w1.files name).isSome = true ∧ w1.objects = w.objects := by
  unfold GCSVFS.Open at h
  split at h
  · simp at h
  · simp only at h
    split at h
    · simp at h
    · rename_i info hinfo
      split at h
      · simp at h
      · simp only [Option.some.injEq, Prod.mk.injEq, Except.ok.injEq] at h
        obtain ⟨rfl, rfl, rfl⟩ := h
        refine ⟨rfl, rfl, hinfo, ?_, ?_⟩
        · split
          · simp [World.putFile]
          · rename_i d hd
            simp [hd]
        · split <;> rfl

/-- C9: `Close` on a handle whose staging file is `p` (any handle `Open p`
returned, dirty or not) reports no error, removes the Path Table entry of `p`
and no other, unlinks the staging file and no other, and leaves every remote
object as it was: nothing is uploaded. -/
theorem Close_spec (f : GCSFile) (vfs : GCSVFS) (w : World) (p : Str)
    (h : f.tempFile = some p) :
    (f.Close vfs w).1 = none ∧
    (f.Close vfs w).2.1.pathInfos.get p = none ∧
    (∀ q, q ≠ p → (f.Close vfs w).2.1.pathInfos.get q = vfs.pathInfos.get q) ∧
    (f.Close vfs w).2.1.client = vfs.client ∧
    (f.Close vfs w).2.2.files p = none ∧
    (∀ q, q ≠ p → (f.Close vfs w).2.2.files q = w.files q) ∧
    (f.Close vfs w).2.2.objects = w.objects := by
  simp only [GCSFile.Close, h, World.putFile, if_true, true_and]
  refine ⟨?_, ?_, ?_⟩
  · cases hm : vfs.pathInfos <;> simp [PathTable.delete, PathTable.get]
  · intro q hq
    cases hm : vfs.pathInfos <;> simp [PathTable.delete, PathTable.get, hq]
  · refine ⟨fun q hq => ?_, trivial⟩
    simp [hq]

theorem Close_spec_witness :
    ((GCSFile.mk true (some "/tmp/app.db".toList) ⟨"mydb".toList, "app.db".toList⟩).Close
      (GCSVFS.mk true (some (mapSet (fun _ => none) "/tmp/app.db".toList
        ⟨"mydb".toList, "app.db".toList⟩)))
      ⟨fun _ _ => some [7], fun _ => some [1]⟩).2.2.objects "mydb".toList "app.db".toList
      = some [7] ∧
    ((GCSFile.mk true (some "/tmp/app.db".toList) ⟨"mydb".toList, "app.db".toList⟩).Close
      (GCSVFS.mk true (some (mapSet (fun _ => none) "/tmp/app.db".toList
        ⟨"mydb".toList, "app.db".toList⟩)))
      ⟨fun _ _ => some [7], fun _ => some [1]⟩).2.1.pathInfos.get "/tmp/app.db".toList
      = none :=
  ⟨by
    rw [(Close_spec (GCSFile.mk true (some "/tmp/app.db".toList)
      ⟨"mydb".toList, "app.db".toList⟩)
      (GCSVFS.mk true (some (mapSet (fun _ => none) "/tmp/app.db".toList
        ⟨"mydb".toList, "app.db".toList⟩)))
      ⟨fun _ _ => some [7], fun _ => some [1]⟩ "/tmp/app.db".toList rfl).2.2.2.2.2.2],
   (Close_spec (GCSFile.mk true (some "/tmp/app.db".toList)
      ⟨"mydb".toList, "app.db".toList⟩)
      (GCSVFS.mk true (some (mapSet (fun _ => none) "/tmp/app.db".toList
        ⟨"mydb".toList, "app.db".toList⟩)))
      ⟨fun _ _ => some [7], fun _ => some [1]⟩ "/tmp/app.db".toList rfl).2.1⟩

/-! ## File handle: `WriteAt`, `Sync` and what `ReadAt` observes -/

theorem Open_appFile :
    (appVFS.Open ⟨fun _ _ => none, fun _ => none⟩ "/tmp/app.db".toList 0 none none).map
      (fun r => r.1) = some (.ok appFile) := rfl

theorem WriteAt_obj (f : GCSFile) (w : World) (b : List Byte) (off : Nat)
    (ioErr : Option GoError) :
    (f.WriteAt w b off ioErr).2.1.obj = f.obj ∧
    (f.WriteAt w b off ioErr).2.1.tempFile = f.tempFile ∧
    (f.WriteAt w b off ioErr).2.1.pendingWrite = true ∧
    (f.WriteAt w b off ioErr).2.2.objects = w.objects := by
  unfold GCSFile.WriteAt
  cases f.tempFile with
  | none => exact ⟨rfl, rfl, rfl, rfl⟩
  | some name =>
    simp only
    cases w.files name with
    | none => exact ⟨rfl, rfl, rfl, rfl⟩
    | some data =>
      cases ioErr with
      | none => exact ⟨rfl, rfl, rfl, rfl⟩
      | some e => exact ⟨rfl, rfl, rfl, rfl⟩

/-- When the range reader opens, `ReadAt` returns the count, bytes and error
of its single `Read` as they are: a short read stays short, and bytes may come
with an error. -/
theorem ReadAt_single_Read (f : GCSFile) (w : World) (len off : Nat)
    (fault : Option GoError) (rd : ReadResult) (r : List Byte)
    (h : f.obj.NewRangeReader w off len fault = .ok r) :
    f.ReadAt w len off fault rd = (r.take rd.n, rd.err) := by
  simp only [GCSFile.ReadAt, h]

theorem ReadAt_short_and_eof :
    appFile.ReadAt ⟨fun _ _ => some [1, 2, 3], fun _ => none⟩ 3 0 none ⟨2, none⟩
      = ([1, 2], none) ∧
    appFile.ReadAt ⟨fun _ _ => some [1, 2, 3], fun _ => none⟩ 3 0 none
        ⟨3, some (.other "EOF")⟩ = ([1, 2, 3], some (.other "EOF")) :=
  ⟨rfl, rfl⟩

/-- `ReadAt` looks at the object handle and the remote objects only. -/
theorem ReadAt_congr (f g : GCSFile) (w v : World) (len off : Nat) (fault : Option GoError)
    (rd : ReadResult) (ho : f.obj = g.obj) (hw : w.objects = v.objects) :
    f.ReadAt w len off fault rd = g.ReadAt v len off fault rd := by
  simp only [GCSFile.ReadAt, ObjectHandle.NewRangeReader, ho, hw]

/-- A successful `WriteAt` leaves `b` in the staging file at `off`. -/
theorem osWriteAt_read (data b : List Byte) (off : Nat) :
    ((osWriteAt data b off).drop off).take b.length = b := by
  unfold osWriteAt
  split
  · rename_i h
    simp [h]
  · have hlen : (data.take off ++ List.replicate (off - data.length) 0).length = off := by
      simp only [List.length_append, List.length_take, List.length_replicate]
      omega
    rw [List.append_assoc, List.drop_left' hlen, List.take_left' rfl]

/-- C3 fails as stated: on the handle of `mydb/app.db`, with no remote object,
`WriteAt([1 2 3], 0)` succeeds and leaves `[1 2 3]` in the staging file, and the
following `ReadAt` of 3 bytes at offset 0 returns no bytes, whatever a `Read`
would have done. -/
theorem WriteAt_ReadAt_counterexample :
    appWritten.1 = (3, none) ∧
    appWritten.2.1.staged appWritten.2.2 = some [1, 2, 3] ∧
    (∀ rd, appWritten.2.1.ReadAt appWritten.2.2 3 0 none rd = ([], none)) ∧
    appWritten.2.1.ReadAt appWritten.2.2 3 0 none ⟨3, none⟩ ≠ ([1, 2, 3], none) := by
  refine ⟨rfl, rfl, fun _ => rfl, ?_⟩
  decide

/-- C3 (amended): after `WriteAt(B, O)` and before any `Sync`, `ReadAt` on the
same handle with a buffer of `len(B)` bytes at offset `O` returns what it
would return without the write, whatever the staging file holds.  When the
remote object reaches beyond `O`, that is the result of the single `Read` on
the range reader: its error as it is, and the first `n` bytes of what the
remote object holds in `[O, O+len(B))`, `n` being that `Read`'s count.  When
the remote object does not exist or ends at or before `O`, it is no bytes with
no error.  `WriteAt` changes no remote object. -/
theorem WriteAt_ReadAt (f : GCSFile) (w : World) (B : List Byte) (O : Nat)
    (ioErr fault : Option GoError) (rd : ReadResult) :
    (f.WriteAt w B O ioErr).2.1.ReadAt (f.WriteAt w B O ioErr).2.2 B.length O fault rd
      = f.ReadAt w B.length O fault rd ∧
    (f.WriteAt w B O ioErr).2.2.objects = w.objects ∧
    (∀ data, w.objects f.obj.bucket f.obj.object = some data → O < data.length →
      (f.WriteAt w B O ioErr).2.1.ReadAt (f.WriteAt w B O ioErr).2.2 B.length O none rd
        = (((data.drop O).take B.length).take rd.n, rd.err)) ∧
    (∀ data, w.objects f.obj.bucket f.obj.object = some data → data.length ≤ O →
      (f.WriteAt w B O ioErr).2.1.ReadAt (f.WriteAt w B O ioErr).2.2 B.length O none rd
        = ([], none)) ∧
    (w.objects f.obj.bucket f.obj.object = none →
      (f.WriteAt w B O ioErr).2.1.ReadAt (f.WriteAt w B O ioErr).2.2 B.length O none rd
        = ([], none)) := by
  obtain ⟨ho, -, -, hw⟩ := WriteAt_obj f w B O ioErr
  have key : ∀ flt, (f.WriteAt w B O ioErr).2.1.ReadAt (f.WriteAt w B O ioErr).2.2
      B.length O flt rd = f.ReadAt w B.length O flt rd :=
    fun flt => ReadAt_congr _ _ _ _ _ _ _ _ ho hw
  refine ⟨key fault, hw, ?_, ?_, ?_⟩
  · intro data hd hlt
    rw [key]
    have : ¬ data.length ≤ O := by omega
    simp only [GCSFile.ReadAt, ObjectHandle.NewRangeReader, hd, this, if_false]
  · intro data hd hle
    rw [key]
    simp [GCSFile.ReadAt, ObjectHandle.NewRangeReader, hd, hle,
      StatusRequestedRangeNotSatisfiable]
  · intro hd
    rw [key]
    simp [GCSFile.ReadAt, ObjectHandle.NewRangeReader, hd]

/-- `Sync` on a clean handle does nothing. -/
theorem Sync_clean (f : GCSFile) (w : World) (flags : Int) (up : Upload)
    (h : f.pendingWrite = false) : f.Sync w flags up = (none, f, w) := by
  simp [GCSFile.Sync, h]

/-- When `io.Copy` fails, `Sync` returns its error and the handle stays dirty. -/
theorem Sync_copy_failure (f : GCSFile) (w : World) (flags : Int) (e : GoError)
    (copied : Nat) (closeErr : Option GoError) (data : List Byte)
    (h : f.pendingWrite = true) (hs : f.staged w = some data) :
    (f.Sync w flags ⟨some e, copied, closeErr⟩).1 = some e ∧
    (f.Sync w flags ⟨some e, copied, closeErr⟩).2.1.pendingWrite = true := by
  simp [GCSFile.Sync, h, hs]

/-- When both `io.Copy` and the writer's `Close` succeed, `Sync` replaces the
remote object with the whole staging file and clears the flag. -/
theorem Sync_upload_ok (f : GCSFile) (w : World) (flags : Int) (copied : Nat)
    (data : List Byte) (h : f.pendingWrite = true) (hs : f.staged w = some data) :
    f.Sync w flags ⟨none, copied, none⟩
      = (none, { f with pendingWrite := false }, w.putObject f.obj (some data)) := by
  simp [GCSFile.Sync, h, hs]

/-- When `io.Copy` succeeds and the writer's `Close` fails, `Sync` still
returns no error and clears the flag, and no remote object has changed. -/
theorem Sync_close_failure (f : GCSFile) (w : World) (flags : Int) (copied : Nat)
    (e : GoError) (data : List Byte) (h : f.pendingWrite = true)
    (hs : f.staged w = some data) :
    f.Sync w flags ⟨none, copied, some e⟩ = (none, { f with pendingWrite := false }, w) := by
  simp [GCSFile.Sync, h, hs]

theorem length_osWriteAt (data b : List Byte) (off : Nat) (hb : b ≠ []) :
    off + b.length ≤ (osWriteAt data b off).length := by
  simp only [osWriteAt, hb, if_false, List.length_append, List.length_take,
    List.length_replicate, List.length_drop]
  omega

/-- Durability in the runs where the upload is committed: after a successful
`WriteAt(B, O)` and a `Sync` whose copy and `Close` both succeed, the remote
object is the whole staging file, and, also after the writing handle is
closed, the bytes that `ReadAt` with a buffer of `len(B)` bytes at `O` returns
on any handle bound to the same object are the first `n` bytes of `B`, `n`
being the count of its single `Read`: all of `B` when that `Read` is full. -/
theorem WriteAt_Sync_durable (f g : GCSFile) (vfs : GCSVFS) (w : World) (B : List Byte)
    (O copied : Nat) (flags : Int) (name : Str) (data : List Byte) (rd : ReadResult)
    (hn : f.tempFile = some name) (hd : w.files name = some data) (hg : g.obj = f.obj) :
    (f.WriteAt w B O none).1 = (B.length, none) ∧
    ((f.WriteAt w B O none).2.1.Sync (f.WriteAt w B O none).2.2 flags ⟨none, copied, none⟩).1
      = none ∧
    ((f.WriteAt w B O none).2.1.Sync (f.WriteAt w B O none).2.2 flags
        ⟨none, copied, none⟩).2.2.objects f.obj.bucket f.obj.object
      = (f.WriteAt w B O none).2.1.staged (f.WriteAt w B O none).2.2 ∧
    (g.ReadAt ((f.WriteAt w B O none).2.1.Sync (f.WriteAt w B O none).2.2 flags
        ⟨none, copied, none⟩).2.2 B.length O none rd).1 = B.take rd.n ∧
    (g.ReadAt (((f.WriteAt w B O none).2.1.Sync (f.WriteAt w B O none).2.2 flags
        ⟨none, copied, none⟩).2.1.Close vfs
          ((f.WriteAt w B O none).2.1.Sync (f.WriteAt w B O none).2.2 flags
            ⟨none, copied, none⟩).2.2).2.2 B.length O none rd).1 = B.take rd.n := by
  have hW : f.WriteAt w B O none
      = ((B.length, none), { f with pendingWrite := true },
          w.putFile name (some (osWriteAt data B O))) := by
    simp [GCSFile.WriteAt, hn, hd]
  have hst : GCSFile.staged { f with pendingWrite := true }
      (w.putFile name (some (osWriteAt data B O))) = some (osWriteAt data B O) := by
    simp [GCSFile.staged, hn, World.putFile]
  rw [hW]
  simp only
  rw [Sync_upload_ok _ _ flags copied (osWriteAt data B O) rfl hst]
  have hread : ∀ v : World,
      v.objects f.obj.bucket f.obj.object = some (osWriteAt data B O) →
      (g.ReadAt v B.length O none rd).1 = B.take rd.n := by
    intro v hv
    simp only [GCSFile.ReadAt, ObjectHandle.NewRangeReader, hg, hv]
    by_cases hB : B = []
    · subst hB
      by_cases hle : (osWriteAt data [] O).length ≤ O
      · simp [hle, StatusRequestedRangeNotSatisfiable]
      · simp [hle]
    · have hl := length_osWriteAt data B O hB
      have hpos : 0 < B.length := List.length_pos.2 hB
      have hlt : ¬ (osWriteAt data B O).length ≤ O := by omega
      simp only [hlt, if_false, osWriteAt_read]
  refine ⟨trivial, rfl, ?_, ?_, ?_⟩
  · simp [World.putObject, hst]
  · apply hread
    simp [World.putObject]
  · apply hread
    simp [GCSFile.Close, hn, World.putObject, World.putFile]

/-- C4 at its failing input: on the handle of `mydb/app.db`, with no remote
object, `WriteAt([1 2 3], 0)` succeeds and the following `Sync` returns no
error in a run where the writer's `Close` failed; the remote object still does
not exist, differs from the staging file `[1 2 3]`, and a `ReadAt` of 3 bytes
at offset 0 on a fresh handle of the same object returns no bytes. -/
theorem Sync_not_durable_on_close_failure :
    appWritten.1 = (3, none) ∧
    appSynced.1 = none ∧
    appSynced.2.1.staged appSynced.2.2 = some [1, 2, 3] ∧
    appSynced.2.2.objects "mydb".toList "app.db".toList = none ∧
    (∀ rd, appFile.ReadAt appSynced.2.2 3 0 none rd = ([], none)) ∧
    (∀ rd, appFile.ReadAt (appSynced.2.1.Close appVFS appSynced.2.2).2.2 3 0 none rd
      = ([], none)) :=
  ⟨rfl, rfl, rfl, rfl, fun _ => rfl, fun _ => rfl⟩

/-- C5 at its failing input: the handle is dirty before `Sync`; in a run where
`io.Copy` succeeds and the writer's `Close` fails, `Sync` returns no error and
the dirty flag is false afterwards although the remote object was not
replaced; a retried `Sync` then uploads nothing, whatever its upload would do. -/
theorem Sync_clears_dirty_on_close_failure :
    appWritten.2.1.pendingWrite = true ∧
    appSynced.1 = none ∧
    appSynced.2.1.pendingWrite = false ∧
    appSynced.2.2.objects "mydb".toList "app.db".toList
      = appWritten.2.2.objects "mydb".toList "app.db".toList ∧
    appSynced.2.2.objects "mydb".toList "app.db".toList = none ∧
    (appSynced.2.1.Sync appSynced.2.2 0 ⟨none, 3, none⟩).2.2.objects
      "mydb".toList "app.db".toList = none :=
  ⟨rfl, rfl, rfl, rfl, rfl, rfl⟩

/-! ## Adapter: `Delete` -/

/-- `Delete` on a registered path, with a client, returns the error of the
remote delete call as it is. -/
theorem Delete_passes_error (vfs : GCSVFS) (w : World) (path : Str) (dirSync : Int)
    (fault : Option GoError) (info : pathInfo) (hc : vfs.client = true)
    (h : vfs.lookupPathInfo path = some info) :
    vfs.Delete w path dirSync fault
      = some (ObjectHandle.Delete ⟨info.bucket, info.path⟩ w fault) := by
  simp [GCSVFS.Delete, h, hc]

/-- C6 at its failing input: `/tmp/app.db` is registered for `mydb/app.db`, the
remote object does not exist and the delete call meets no other failure;
`Delete` returns `storage.ErrObjectNotExist`, where `FileSize` and `ReadAt` on
the same missing object return no error. -/
theorem Delete_missing_object_fails :
    appVFS.lookupPathInfo "/tmp/app.db".toList = some ⟨"mydb".toList, "app.db".toList⟩ ∧
    appWorld.objects "mydb".toList "app.db".toList = none ∧
    (appVFS.Delete appWorld "/tmp/app.db".toList 0 none).map (fun r => r.1)
      = some (some .ErrObjectNotExist) ∧
    appFile.FileSize appWorld none = (0, none) ∧
    (∀ rd, appFile.ReadAt appWorld 4096 0 none rd = ([], none)) :=
  ⟨rfl, rfl, rfl, rfl, fun _ => rfl⟩

end gcsvfs
